import Mathlib

/-!
Shallow embedding of `kur/utils/audiotools.py` (feature extraction for
audio machine learning), centred on the `get_audio_features` dispatcher
and its `'spec'` (log-power spectrogram) branch.

Modelling conventions:
* PCM samples are modelled as rationals (`ℚ`); the spectral pipeline
  (Hann window, real FFT, power, log) lives in `ℝ`/`ℂ`.
* Python integers are modelled by `ℤ` where the source can go negative
  (`%` is `Int.emod`, `//` is `Int.fdiv`, matching Python's floored
  semantics for a positive modulus/divisor); `ℕ` elsewhere.
* The float literals `0.020`, `0.010` and the derived `1 / 0.020` are
  modelled by the rationals `1/50`, `1/100` and `50`.  In IEEE binary64
  the products `0.020 * sr` and `0.010 * sr` and the quotient
  `1 / 0.020 = 50.0` agree with the rational model after `int()`
  truncation for every integer sample rate in the realistic range,
  because the fractional parts involved stay at distance ≥ 1/100 from
  the truncation boundaries while the float rounding error is ~1e-15.
* numpy's in-place slice updates (`scaled[1:-1] /= ...`,
  `scaled[[0, -1]] /= ...`) are modelled as successive total updates of
  a function `ℕ → ℕ → ℝ`; fancy-index assignment with the repeated
  index `[0, -1]` on a single-bin array writes the gathered quotient,
  so each selected row is divided exactly once, which the disjunctive
  condition below reproduces.
* Python exceptions become `Except` errors: the `ValueError` raised for
  an unsupported feature type, the `ZeroDivisionError` raised by
  `% hop_size` when `hop_size == 0`, and the `ValueError` numpy's
  `as_strided` raises on a negative `num_frames` dimension.
-/

namespace Audiotools

/-- An audio buffer as returned by `load_audio` / expected by
`get_audio_features`: mono signal, sample rate in Hz, sample width in
bits, channel count. -/
structure AudioBuffer where
  signal : List ℚ
  sample_rate : ℕ
  sample_width : ℕ
  channels : ℕ

/-- Model of `scale_signal`: `audio['signal'] / 2**(audio['sample_width'] - 1)`,
numpy's elementwise division modelled as a map over the samples. -/
def scale_signal (audio : AudioBuffer) : List ℚ :=
  audio.signal.map (fun s => s / 2 ^ (audio.sample_width - 1))

/-- Constant `window_size = 0.020` (seconds). -/
def window_size : ℚ := 1 / 50

/-- Constant `step_size = 0.010` (seconds). -/
def step_size : ℚ := 1 / 100

/-- Model of `hop_size = int(step_size * audio['sample_rate'])` — `int()` on a
nonnegative float truncates, i.e. takes the floor. -/
def hopSize (sr : ℕ) : ℕ := (Int.floor (step_size * (sr : ℚ))).toNat

/-- Model of `frame_size = int(window_size * audio['sample_rate'])`. -/
def frameSize (sr : ℕ) : ℕ := (Int.floor (window_size * (sr : ℚ))).toNat

/-- Model of `remove = (len(signal) - frame_size) % hop_size`, with Python's
integer semantics: the subtraction may be negative, `%` with a positive
right operand is floored modulus (`Int.emod`). -/
def removePy (L F H : ℕ) : ℤ := ((L : ℤ) - (F : ℤ)).emod (H : ℤ)

/-- Length of `clean`, the signal after `signal[:-remove]` (or the
whole signal when `remove == 0`).  Python slicing clamps at an empty
result, which truncated `ℕ` subtraction reproduces. -/
def cleanLen (L F H : ℕ) : ℕ := L - (removePy L F H).toNat

/-- Model of `num_frames = (len(clean) - frame_size) // hop_size + 1` with
Python's floored `//` (`Int.fdiv`); negative when the signal is short. -/
def numFramesPy (L F H : ℕ) : ℤ :=
  ((cleanLen L F H : ℤ) - (F : ℤ)).fdiv (H : ℤ) + 1

/-- The strided frame view: `frames[k, i] = clean[k + i*hop_size]`
(shape `(frame_size, num_frames)`, strides `(s, s*hop_size)`). -/
def frameMatrix (clean : List ℚ) (H : ℕ) : ℕ → ℕ → ℚ :=
  fun k i => clean.getD (k + i * H) 0

/-- Index interval `[i*hop_size, i*hop_size + frame_size)` of the
truncated signal covered by frame `i`. -/
def frameRange (H F i : ℕ) : Finset ℕ := Finset.Ico (i * H) (i * H + F)

/-- Number of one-sided FFT bins: `frame_size // 2 + 1`. -/
def numBins (F : ℕ) : ℕ := F / 2 + 1

/-- Constant `delta_freq = 1 / window_size`. -/
def delta_freq : ℚ := 1 / window_size

/-- Python truthiness of an optional integer keyword argument: `None`
and `0` are falsy. -/
def truthy : Option ℕ → Bool
  | none => false
  | some n => decide (n ≠ 0)

/-- Model of `get_bin`: `min(max(int(f / delta_freq + 0.5), 0), num_bins) if f
else alt`.  The cutoff is a Python int (possibly `None`), so `int()`
truncation equals the floor on the nonnegative float `f/50 + 0.5`. -/
def getBin (f : Option ℕ) (alt nb : ℕ) : ℕ :=
  match f with
  | some v =>
      if v ≠ 0 then
        (min (max (Int.floor ((v : ℚ) / delta_freq + 1 / 2)) 0) (nb : ℤ)).toNat
      else alt
  | none => alt

/-- The pair `(low_bin, high_bin)` used to slice the frequency axis:
`spec[get_bin(low_freq, 0):get_bin(high_freq, num_bins)]` when either
cutoff is truthy, otherwise the crop block is skipped (equivalently the
full range `[0, num_bins)`). -/
def cropBounds (F : ℕ) (low high : Option ℕ) : ℕ × ℕ :=
  if truthy low || truthy high then
    (getBin low 0 (numBins F), getBin high (numBins F) (numBins F))
  else (0, numBins F)

/-- Model of `numpy.hanning(M)`: `w[k] = 0.5 - 0.5*cos(2*pi*k/(M-1))` for
`0 ≤ k < M`, with numpy's special case `hanning(1) = [1.0]`. -/
noncomputable def hanning (M : ℕ) : ℕ → ℝ :=
  if M = 1 then fun _ => 1
  else fun k => 1 / 2 - 1 / 2 * Real.cos (2 * Real.pi * k / (M - 1 : ℕ))

/-- Model of `numpy.fft.rfft` along the frame axis, bin `b` of the length-`F`
real input `x`: `sum_k x[k] * exp(-2*pi*i*b*k/F)`. -/
noncomputable def rfft (F : ℕ) (x : ℕ → ℝ) (b : ℕ) : ℂ :=
  ∑ k in Finset.range F,
    (x k : ℂ) * Complex.exp (-(2 * Real.pi * Complex.I * b * k) / F)

/-- Model of `norm = numpy.absolute(fft)**2` where
`fft = rfft(frames * window[:, None], axis=0)`: the squared magnitude
of the FFT of the windowed frame. -/
noncomputable def powerSpec (F : ℕ) (frames : ℕ → ℕ → ℝ) : ℕ → ℕ → ℝ :=
  fun b t => Complex.abs (rfft F (fun k => frames k t * hanning F k) b) ^ 2

/-- Model of `scale = numpy.sum(filter_window**2) * audio['sample_rate']`. -/
noncomputable def scaleOf (F sr : ℕ) : ℝ :=
  (∑ k in Finset.range F, hanning F k ^ 2) * (sr : ℕ)

/-- The in-place update `scaled[1:-1] /= scale/2`: rows `1` through
`num_bins - 2` are divided by `scale/2`, the rest untouched. -/
noncomputable def scaledStep1 (F : ℕ) (scale : ℝ) (a : ℕ → ℕ → ℝ) :
    ℕ → ℕ → ℝ :=
  fun b t => if 1 ≤ b ∧ b + 1 < numBins F then a b t / (scale / 2) else a b t

/-- The in-place update `scaled[[0, -1]] /= scale`: rows `0` and
`num_bins - 1` are divided by `scale` (once each, even when they
coincide, by numpy's fancy-index assignment semantics). -/
noncomputable def scaledStep2 (F : ℕ) (scale : ℝ) (a : ℕ → ℕ → ℝ) :
    ℕ → ℕ → ℝ :=
  fun b t => if b = 0 ∨ b = numBins F - 1 then a b t / scale else a b t

/-- The spectrogram before the frequency crop and the log: power
spectrum of the windowed frames, normalized by the two in-place
divisions, indexed (frequency, time). -/
noncomputable def preLogSpec (F sr : ℕ) (frames : ℕ → ℕ → ℝ) :
    ℕ → ℕ → ℝ :=
  scaledStep2 F (scaleOf F sr) (scaledStep1 F (scaleOf F sr) (powerSpec F frames))

/-- The pre-log spectrogram after the slice
`spec[low_bin:high_bin]`: row `b` of the sliced array is row
`low_bin + b` of the full one. -/
noncomputable def croppedPreLog (F sr : ℕ) (frames : ℕ → ℕ → ℝ)
    (low high : Option ℕ) : ℕ → ℕ → ℝ :=
  fun b t => preLogSpec F sr frames ((cropBounds F low high).1 + b) t

/-- The result of the `'spec'` branch: number of time frames, number of
frequency bins after the crop, and the log-power entries indexed
(time, frequency) after the final transpose. -/
structure Spectrogram where
  numTimeFrames : ℕ
  numFreqBins : ℕ
  entry : ℕ → ℕ → ℝ

/-- The exceptions `get_audio_features` can raise. -/
inductive AudioError where
  /-- The `ValueError('Unsupported feature type: ...')` from the dispatch. -/
  | unsupportedFeatureType (msg : String)
  /-- The Python `ZeroDivisionError` from `% hop_size` when `hop_size == 0`
  (sample rates below 100 Hz). -/
  | zeroDivisionError
  /-- The numpy `ValueError` from `as_strided` when `num_frames < 0`. -/
  | negativeDimensionsError
deriving DecidableEq

/-- The value returned by `get_audio_features`: the raw signal, the
argument tuple forwarded to the external `python_speech_features.mfcc`
collaborator, or a spectrogram. -/
inductive FeatureResult where
  | raw (signal : List ℚ)
  | mfcc (signal : List ℚ) (sample_rate numcep nfilt lowfreq : ℕ)
      (highfreq : Option ℕ)
  | spec (s : Spectrogram)

/-- The keyword arguments of `get_audio_features` (each possibly
absent; an explicit `0` is falsy exactly like an absent key). -/
structure SpecKwargs where
  features : Option ℕ
  low_freq : Option ℕ
  high_freq : Option ℕ

/-- Model of `kwargs.get(k) or d` for an integer default. -/
def orDefault (o : Option ℕ) (d : ℕ) : ℕ :=
  match o with
  | some n => if n ≠ 0 then n else d
  | none => d

/-- Model of `kwargs.get(k) or None`. -/
def orNone (o : Option ℕ) : Option ℕ :=
  match o with
  | some n => if n ≠ 0 then some n else none
  | none => none

/-- The `'spec'` branch of `get_audio_features`: scale the signal,
frame it with the strided view, window, FFT, normalize, crop, log,
transpose. -/
noncomputable def specFeature (audio : AudioBuffer) (low high : Option ℕ) :
    Except AudioError Spectrogram :=
  let signal := scale_signal audio
  let H := hopSize audio.sample_rate
  let F := frameSize audio.sample_rate
  if H = 0 then Except.error AudioError.zeroDivisionError
  else
    let L := signal.length
    let nF := numFramesPy L F H
    if nF < 0 then Except.error AudioError.negativeDimensionsError
    else
      let clean := signal.take (cleanLen L F H)
      let frames : ℕ → ℕ → ℝ := fun k i => ((frameMatrix clean H k i : ℚ) : ℝ)
      let bounds := cropBounds F low high
      Except.ok
        ⟨nF.toNat, bounds.2 - bounds.1,
         fun t b =>
           Real.log (croppedPreLog F audio.sample_rate frames low high b t
             + 1e-14)⟩

/-- Model of `get_audio_features(audio, feature_type, **kwargs)` for an
already-loaded buffer (the path branch delegates to `load_audio`,
which is out-of-scope decoder glue). -/
noncomputable def get_audio_features (audio : AudioBuffer)
    (feature_type : String) (kwargs : SpecKwargs) :
    Except AudioError FeatureResult :=
  if feature_type = "raw" then Except.ok (FeatureResult.raw audio.signal)
  else if feature_type = "mfcc" then
    let num_features := orDefault kwargs.features 13
    Except.ok (FeatureResult.mfcc audio.signal audio.sample_rate
      num_features (num_features * 2)
      (orDefault kwargs.low_freq 0) (orNone kwargs.high_freq))
  else if feature_type = "spec" then
    (specFeature audio kwargs.low_freq kwargs.high_freq).map FeatureResult.spec
  else
    Except.error (AudioError.unsupportedFeatureType
      ("Unsupported feature type: " ++ feature_type))

/-- Number of time frames of a successful `'spec'` result. -/
def specTimeFrames : Except AudioError FeatureResult → Option ℕ
  | Except.ok (FeatureResult.spec s) => some s.numTimeFrames
  | _ => none

/-- Number of frequency bins of a successful `'spec'` result. -/
def specFreqBins : Except AudioError FeatureResult → Option ℕ
  | Except.ok (FeatureResult.spec s) => some s.numFreqBins
  | _ => none

/-- No keyword arguments supplied. -/
def kwNone : SpecKwargs := ⟨none, none, none⟩

/-- A 300-sample buffer at 16000 Hz: shorter than one 320-sample frame. -/
def audio300 : AudioBuffer := ⟨List.replicate 300 0, 16000, 16, 1⟩

/-- A 100-sample buffer at 16000 Hz: shorter than one 320-sample frame. -/
def audio100 : AudioBuffer := ⟨List.replicate 100 0, 16000, 16, 1⟩

/-- A two-sample buffer at a 50 Hz sample rate (hop size truncates to 0). -/
def audioSR50 : AudioBuffer := ⟨[0, 0], 50, 16, 1⟩

/-- A one-frame buffer at 16000 Hz (320 samples). -/
def audio320 : AudioBuffer := ⟨List.replicate 320 0, 16000, 16, 1⟩

/-- The extreme 16-bit samples used by the normalization round-trip. -/
def audioPCM16 : AudioBuffer := ⟨[32767, -32768], 16000, 16, 1⟩

/-- What the spec's words ask of the frame size: `round(0.020 * sr)`
(rounding, not truncation); compared below against the source's
truncating `frameSize`. -/
def specFrameSize (sr : ℕ) : ℤ := round (window_size * (sr : ℚ))

lemma frameSize_eq (sr : ℕ) : frameSize sr = sr / 50 := by
  have h : window_size * (sr : ℚ) = (sr : ℚ) / ((50 : ℕ) : ℚ) := by
    rw [window_size]; push_cast; ring
  rw [frameSize, h, Rat.floor_natCast_div_natCast]; omega

lemma hopSize_eq (sr : ℕ) : hopSize sr = sr / 100 := by
  have h : step_size * (sr : ℚ) = (sr : ℚ) / ((100 : ℕ) : ℚ) := by
    rw [step_size]; push_cast; ring
  rw [hopSize, h, Rat.floor_natCast_div_natCast]; omega

lemma getBin_some (v alt nb : ℕ) (hv : v ≠ 0) :
    getBin (some v) alt nb
      = (min (max (((2 * v + 50) / 100 : ℕ) : ℤ) 0) (nb : ℤ)).toNat := by
  have h : (v : ℚ) / delta_freq + 1 / 2 = ((2 * v + 50 : ℕ) : ℚ) / ((100 : ℕ) : ℚ) := by
    rw [delta_freq, window_size]; push_cast; ring
  rw [getBin, if_pos hv, h, Rat.floor_natCast_div_natCast]
  omega

lemma emod_natCast (a b : ℕ) : ((a : ℤ)).emod (b : ℤ) = ((a % b : ℕ) : ℤ) := rfl

lemma fdiv_natCast (a b : ℕ) : ((a : ℤ)).fdiv (b : ℤ) = ((a / b : ℕ) : ℤ) :=
  (Int.ofNat_fdiv a b).symm

lemma removePy_eq (L F H : ℕ) (hFL : F ≤ L) :
    removePy L F H = (((L - F) % H : ℕ) : ℤ) := by
  rw [removePy, show (L : ℤ) - (F : ℤ) = ((L - F : ℕ) : ℤ) by omega, emod_natCast]

lemma cleanLen_eq (L F H : ℕ) (hFL : F ≤ L) :
    cleanLen L F H = L - (L - F) % H := by
  rw [cleanLen, removePy_eq L F H hFL]; omega

lemma cleanLen_ge (L F H : ℕ) (hFL : F ≤ L) : F ≤ cleanLen L F H := by
  rw [cleanLen_eq L F H hFL]
  have := Nat.mod_le (L - F) H
  omega

lemma numFramesPy_eq (L F H : ℕ) (hFL : F ≤ L) :
    numFramesPy L F H = (((cleanLen L F H - F) / H + 1 : ℕ) : ℤ) := by
  have h := cleanLen_ge L F H hFL
  rw [numFramesPy,
    show ((cleanLen L F H : ℤ)) - (F : ℤ) = ((cleanLen L F H - F : ℕ) : ℤ) by omega,
    fdiv_natCast]
  push_cast
  ring

lemma cleanLen_sub_eq (L F H : ℕ) (hFL : F ≤ L) :
    cleanLen L F H - F = H * ((L - F) / H) := by
  rw [cleanLen_eq L F H hFL]
  have := Nat.mod_add_div (L - F) H
  omega

/-- C3 counterexample: at sample rate 1030 the code computes
`int(0.020 * 1030) = 20`, while the claim's `round(0.020 * 1030) = 21`;
the two disagree, so `int()` does not round. -/
theorem frame_hop_rounding_counterexample :
    frameSize 1030 = 20 ∧ specFrameSize 1030 = 21 ∧
    (frameSize 1030 : ℤ) ≠ specFrameSize 1030 := by
  have h1 : frameSize 1030 = 20 := by rw [frameSize_eq]
  have h2 : specFrameSize 1030 = 21 := by
    rw [specFrameSize, round_eq]
    norm_num [window_size]
  refine ⟨h1, h2, ?_⟩
  rw [h1, h2]
  decide

/-- C3 amended: the frame and hop sizes are obtained by truncating
(flooring) the products `0.020 * sample_rate` and `0.010 * sample_rate`
— `int()` conversion — which on naturals is division by 50 and 100. -/
theorem frame_hop_truncation (sr : ℕ) :
    (frameSize sr : ℤ) = Int.floor ((0.020 : ℚ) * sr) ∧
    (hopSize sr : ℤ) = Int.floor ((0.010 : ℚ) * sr) ∧
    frameSize sr = sr / 50 ∧ hopSize sr = sr / 100 := by
  have hw : (0.020 : ℚ) = window_size := by norm_num [window_size]
  have hs : (0.010 : ℚ) = step_size := by norm_num [step_size]
  refine ⟨?_, ?_, frameSize_eq sr, hopSize_eq sr⟩
  · rw [hw, frameSize]
    exact Int.toNat_of_nonneg (Int.floor_nonneg.mpr (by positivity))
  · rw [hs, hopSize]
    exact Int.toNat_of_nonneg (Int.floor_nonneg.mpr (by positivity))

/-- C7: `scale_signal` divides every sample by `2^(sample_width - 1)`
(a pure function of the buffer), and for 16-bit audio the sample
`32767` lands within `2⁻¹⁵` of `+1` while `-32768` lands exactly on
`-1`. -/
theorem scale_signal_contract (audio : AudioBuffer) :
    (scale_signal audio).length = audio.signal.length ∧
    (∀ i : ℕ, i < audio.signal.length →
      (scale_signal audio).getD i 0
        = audio.signal.getD i 0 / 2 ^ (audio.sample_width - 1)) ∧
    |(scale_signal audioPCM16).getD 0 0 - 1| ≤ 1 / 2 ^ 15 ∧
    (scale_signal audioPCM16).getD 1 0 = -1 := by
  refine ⟨by simp [scale_signal], ?_, ?_, ?_⟩
  · intro i hi
    simp [scale_signal, List.getD_eq_getElem?_getD, List.getElem?_map,
      List.getElem?_eq_getElem, hi]
  · rw [abs_le]
    norm_num [scale_signal, audioPCM16]
  · norm_num [scale_signal, audioPCM16]

/-- Witness for C7 at the concrete 16-bit buffer, index 0. -/
theorem scale_signal_contract_witness :
    0 < audioPCM16.signal.length ∧
    (scale_signal audioPCM16).getD 0 0
      = audioPCM16.signal.getD 0 0 / 2 ^ (audioPCM16.sample_width - 1) :=
  ⟨by norm_num [audioPCM16],
   (scale_signal_contract audioPCM16).2.1 0 (by norm_num [audioPCM16])⟩

/-- C5: a truthy cutoff `f` maps to `clamp(round(f / delta_freq), 0,
num_bins)` with `delta_freq = 50` Hz per bin (so 100 Hz ↦ bin 2 and
2000 Hz ↦ bin 40), a falsy cutoff defaults to `0` (low) or `num_bins`
(high) — also when the whole crop block is skipped — and the frequency
axis is sliced to `[low_bin, high_bin)`. -/
theorem freq_crop_contract :
    delta_freq = 50 ∧
    (∀ f alt nb : ℕ, f ≠ 0 →
      (getBin (some f) alt nb : ℤ)
        = min (max (round ((f : ℚ) / delta_freq)) 0) (nb : ℤ)) ∧
    (∀ alt nb : ℕ, getBin none alt nb = alt ∧ getBin (some 0) alt nb = alt) ∧
    getBin (some 100) 0 161 = 2 ∧
    getBin (some 2000) 161 161 = 40 ∧
    (∀ (F : ℕ) (low high : Option ℕ), (truthy low || truthy high) = false →
      cropBounds F low high = (0, numBins F)) ∧
    (∀ (F : ℕ) (low high : Option ℕ), (truthy low || truthy high) = true →
      cropBounds F low high
        = (getBin low 0 (numBins F), getBin high (numBins F) (numBins F))) ∧
    (∀ (F sr b t : ℕ) (frames : ℕ → ℕ → ℝ) (low high : Option ℕ),
      croppedPreLog F sr frames low high b t
        = preLogSpec F sr frames ((cropBounds F low high).1 + b) t) := by
  refine ⟨by norm_num [delta_freq, window_size], ?_, ?_, ?_, ?_, ?_, ?_, ?_⟩
  · intro f alt nb hf
    rw [getBin, if_pos hf, round_eq]
    have h0 : (0 : ℤ) ≤ min (max ⌊(f : ℚ) / delta_freq + 1 / 2⌋ 0) (nb : ℤ) :=
      le_min (le_max_right _ _) (Int.natCast_nonneg nb)
    rw [Int.toNat_of_nonneg h0]
  · intro alt nb
    exact ⟨rfl, by simp [getBin]⟩
  · rw [getBin_some 100 0 161 (by decide)]
    decide
  · rw [getBin_some 2000 161 161 (by decide)]
    decide
  · intro F low high h
    rw [cropBounds, h]
    rfl
  · intro F low high h
    rw [cropBounds, h]
    rfl
  · intro F sr b t frames low high
    rfl

/-- Witness for C5: the truthy branch of the bin map applied at the
100 Hz cutoff. -/
theorem freq_crop_contract_witness :
    (100 : ℕ) ≠ 0 ∧
    (getBin (some 100) 0 161 : ℤ)
      = min (max (round ((100 : ℚ) / delta_freq)) 0) ((161 : ℕ) : ℤ) :=
  ⟨by decide, freq_crop_contract.2.1 100 0 161 (by decide)⟩

/-- C2: for a signal of length `L ≥ F` and hop `0 < H ≤ F`, the framer
removes the last `(L - F) % H` samples, produces
`(L - remove - F)//H + 1` frames, frame `i` reads samples
`[i*H, i*H + F)` of the truncated signal (all in range), and
consecutive frames overlap on exactly `F - H` sample indices. -/
theorem framer_contract (L F H : ℕ) (hH : 0 < H) (hHF : H ≤ F) (hFL : F ≤ L) :
    removePy L F H = (((L - F) % H : ℕ) : ℤ) ∧
    cleanLen L F H = L - (L - F) % H ∧
    numFramesPy L F H = (((L - (L - F) % H - F) / H + 1 : ℕ) : ℤ) ∧
    (∀ (signal : List ℚ) (i k : ℕ), signal.length = L →
      (i : ℤ) < numFramesPy L F H → k < F →
      i * H + k < cleanLen L F H ∧
      frameMatrix (signal.take (cleanLen L F H)) H k i
        = signal.getD (i * H + k) 0) ∧
    (∀ i : ℕ, (frameRange H F i ∩ frameRange H F (i + 1)).card = F - H) := by
  have h2 := cleanLen_eq L F H hFL
  have h3 := numFramesPy_eq L F H hFL
  refine ⟨removePy_eq L F H hFL, h2, by rw [h3, h2], ?_, ?_⟩
  · intro signal i k hlen hi hk
    have hd : cleanLen L F H - F = H * ((L - F) / H) := cleanLen_sub_eq L F H hFL
    have hq : (cleanLen L F H - F) / H = (L - F) / H := by
      rw [hd, Nat.mul_div_cancel_left _ hH]
    have hnum : numFramesPy L F H = (((L - F) / H + 1 : ℕ) : ℤ) := by
      rw [h3, hq]
    have hi' : i ≤ (L - F) / H := by
      rw [hnum] at hi
      have : i < (L - F) / H + 1 := by exact_mod_cast hi
      omega
    have hiH : i * H ≤ ((L - F) / H) * H := Nat.mul_le_mul_right H hi'
    have hge := cleanLen_ge L F H hFL
    have hcl : cleanLen L F H = F + H * ((L - F) / H) := by omega
    have hrange : i * H + k < cleanLen L F H := by
      have hcomm : ((L - F) / H) * H = H * ((L - F) / H) := Nat.mul_comm _ _
      omega
    refine ⟨hrange, ?_⟩
    rw [frameMatrix, Nat.add_comm k (i * H), List.getD_eq_getElem?_getD,
      List.getD_eq_getElem?_getD, List.getElem?_take_of_lt hrange]
  · intro i
    rw [frameRange, frameRange, Finset.Ico_inter_Ico, Nat.card_Ico]
    have e1 : (i + 1) * H = i * H + H := by ring
    rw [e1, max_eq_right (by omega), min_eq_left (by omega)]
    omega

/-- Witness for C2 at `L = 30`, `F = 4`, `H = 2`. -/
theorem framer_contract_witness :
    0 < 2 ∧ 2 ≤ 4 ∧ 4 ≤ 30 ∧
    removePy 30 4 2 = (((30 - 4) % 2 : ℕ) : ℤ) :=
  ⟨by decide, by decide, by decide,
   (framer_contract 30 4 2 (by decide) (by decide) (by decide)).1⟩

lemma specFeature_error_cases (audio : AudioBuffer) (low high : Option ℕ)
    (e : AudioError) (h : specFeature audio low high = Except.error e) :
    e = AudioError.zeroDivisionError ∨ e = AudioError.negativeDimensionsError := by
  simp only [specFeature] at h
  split_ifs at h with h0 h1
  · injection h with h'
    exact Or.inl h'.symm
  · injection h with h'
    exact Or.inr h'.symm

/-- C9: any feature type outside `{raw, mfcc, spec}` yields the
`ValueError` whose message names the unsupported type, and none of the
three supported feature types can ever produce that error. -/
theorem dispatcher_invalid_argument (audio : AudioBuffer) (kw : SpecKwargs)
    (ft : String) (h1 : ft ≠ "raw") (h2 : ft ≠ "mfcc") (h3 : ft ≠ "spec") :
    get_audio_features audio ft kw
      = Except.error (AudioError.unsupportedFeatureType
          ("Unsupported feature type: " ++ ft)) ∧
    (∀ msg : String,
      get_audio_features audio ("raw") kw
          ≠ Except.error (AudioError.unsupportedFeatureType msg) ∧
      get_audio_features audio ("mfcc") kw
          ≠ Except.error (AudioError.unsupportedFeatureType msg) ∧
      get_audio_features audio ("spec") kw
          ≠ Except.error (AudioError.unsupportedFeatureType msg)) := by
  constructor
  · simp only [get_audio_features]
    rw [if_neg h1, if_neg h2, if_neg h3]
  · intro msg
    refine ⟨by simp [get_audio_features], by simp [get_audio_features], ?_⟩
    simp only [get_audio_features]
    norm_num
    intro hc
    cases hsf : specFeature audio kw.low_freq kw.high_freq with
    | ok s =>
      rw [hsf] at hc
      simp [Except.map] at hc
    | error e =>
      rw [hsf] at hc
      simp [Except.map] at hc
      rcases specFeature_error_cases audio _ _ e hsf with he | he <;>
        simp [he] at hc

/-- Witness for C9 at the concrete unsupported type `"bogus"`. -/
theorem dispatcher_invalid_argument_witness :
    (("bogus" : String) ≠ "raw") ∧ (("bogus" : String) ≠ "mfcc") ∧
    (("bogus" : String) ≠ "spec") ∧
    get_audio_features audio320 ("bogus") kwNone
      = Except.error (AudioError.unsupportedFeatureType
          ("Unsupported feature type: " ++ "bogus")) :=
  ⟨by decide, by decide, by decide,
   (dispatcher_invalid_argument audio320 kwNone ("bogus")
      (by decide) (by decide) (by decide)).1⟩

set_option maxRecDepth 8192 in
/-- C4 (code bug): on a signal shorter than one frame the code does
not raise a distinguished invalid-input error — a 300-sample buffer at
16 kHz (frame size 320) silently yields a spectrogram with zero time
frames, while a 100-sample buffer dies with numpy's unrelated
negative-dimensions `ValueError`. -/
theorem short_signal_not_invalid_input :
    audio300.signal.length < frameSize audio300.sample_rate ∧
    specTimeFrames (get_audio_features audio300 ("spec") kwNone) = some 0 ∧
    audio100.signal.length < frameSize audio100.sample_rate ∧
    get_audio_features audio100 ("spec") kwNone
      = Except.error AudioError.negativeDimensionsError := by
  have hF : frameSize 16000 = 320 := by rw [frameSize_eq]
  have hH : hopSize 16000 = 160 := by rw [hopSize_eq]
  have hn3 : numFramesPy 300 320 160 = 0 := by decide
  have hn1 : numFramesPy 100 320 160 = -1 := by decide
  refine ⟨?_, ?_, ?_, ?_⟩
  · simp [audio300, hF]
  · simp [get_audio_features, specFeature, audio300, scale_signal, kwNone,
      hF, hH, hn3, specTimeFrames, Except.map]
  · simp [audio100, hF]
  · simp [get_audio_features, specFeature, audio100, scale_signal, kwNone,
      hF, hH, hn1, Except.map]

/-- C6 counterexample: the buffer `⟨[0, 0], 50 Hz, 16, 1⟩` satisfies
the claim's validity condition `len(signal) ≥ frame_size` (2 ≥ 1), yet
`'spec'` raises `ZeroDivisionError` (hop size truncates to 0) instead
of returning a `frame_size//2 + 1`-bin spectrogram. -/
theorem spec_bin_count_zero_division :
    frameSize audioSR50.sample_rate ≤ audioSR50.signal.length ∧
    get_audio_features audioSR50 ("spec") kwNone
      = Except.error AudioError.zeroDivisionError := by
  have hF : frameSize 50 = 1 := by rw [frameSize_eq]
  have hH : hopSize 50 = 0 := by rw [hopSize_eq]
  constructor
  · simp [audioSR50, hF]
  · simp [get_audio_features, specFeature, audioSR50, hH, kwNone, Except.map]

/-- C6 amended: for every buffer with `sample_rate ≥ 100` (so the hop
size is nonzero) and `len(signal) ≥ frame_size`, the `'spec'` feature
with both cutoffs unset returns a spectrogram with `frame_size//2 + 1`
frequency bins. -/
theorem spec_bin_count (audio : AudioBuffer)
    (hsr : 100 ≤ audio.sample_rate)
    (hlen : frameSize audio.sample_rate ≤ audio.signal.length) :
    specFreqBins (get_audio_features audio ("spec") kwNone)
      = some (numBins (frameSize audio.sample_rate)) := by
  have hH : hopSize audio.sample_rate ≠ 0 := by
    rw [hopSize_eq]
    omega
  have hFL : frameSize audio.sample_rate ≤ (scale_signal audio).length := by
    simpa [scale_signal] using hlen
  have hnF : ¬ (numFramesPy (scale_signal audio).length
      (frameSize audio.sample_rate) (hopSize audio.sample_rate) < 0) := by
    rw [numFramesPy_eq _ _ _ hFL]
    exact not_lt.mpr (Int.natCast_nonneg _)
  simp [get_audio_features, specFeature, hH, hnF, specFreqBins,
    cropBounds, truthy, kwNone, Except.map]

/-- C10: with both cutoffs supplied and nonzero, if the high cutoff's
bin is at or below the low cutoff's bin, the `'spec'` call still
succeeds and returns a spectrogram with zero frequency bins. -/
theorem empty_crop_returns (audio : AudioBuffer) (lf hf : ℕ)
    (hlf : lf ≠ 0) (hhf : hf ≠ 0)
    (hsr : 100 ≤ audio.sample_rate)
    (hlen : frameSize audio.sample_rate ≤ audio.signal.length)
    (hbin : getBin (some hf) (numBins (frameSize audio.sample_rate))
        (numBins (frameSize audio.sample_rate))
      ≤ getBin (some lf) 0 (numBins (frameSize audio.sample_rate))) :
    specFreqBins (get_audio_features audio ("spec") ⟨none, some lf, some hf⟩)
      = some 0 := by
  have hH : hopSize audio.sample_rate ≠ 0 := by
    rw [hopSize_eq]
    omega
  have hFL : frameSize audio.sample_rate ≤ (scale_signal audio).length := by
    simpa [scale_signal] using hlen
  have hnF : ¬ (numFramesPy (scale_signal audio).length
      (frameSize audio.sample_rate) (hopSize audio.sample_rate) < 0) := by
    rw [numFramesPy_eq _ _ _ hFL]
    exact not_lt.mpr (Int.natCast_nonneg _)
  have ht : truthy (some lf) = true := by simp [truthy, hlf]
  simp [get_audio_features, specFeature, hH, hnF, specFreqBins,
    cropBounds, ht, Nat.sub_eq_zero_of_le hbin, Except.map]

/-- Witness for the amended C6 at a one-frame 16 kHz buffer. -/
theorem spec_bin_count_witness :
    100 ≤ audio320.sample_rate ∧
    frameSize audio320.sample_rate ≤ audio320.signal.length ∧
    specFreqBins (get_audio_features audio320 ("spec") kwNone)
      = some (numBins (frameSize audio320.sample_rate)) := by
  have h1 : (100 : ℕ) ≤ audio320.sample_rate := by norm_num [audio320]
  have h2 : frameSize audio320.sample_rate ≤ audio320.signal.length := by
    show frameSize 16000 ≤ (List.replicate 320 (0 : ℚ)).length
    rw [frameSize_eq, List.length_replicate]
  exact ⟨h1, h2, spec_bin_count audio320 h1 h2⟩

/-- Witness for C10: cutoffs `low_freq = 2000`, `high_freq = 100` at a
one-frame 16 kHz buffer give bins 40 and 2 and an empty crop. -/
theorem empty_crop_returns_witness :
    (2000 : ℕ) ≠ 0 ∧ (100 : ℕ) ≠ 0 ∧ 100 ≤ audio320.sample_rate ∧
    frameSize audio320.sample_rate ≤ audio320.signal.length ∧
    getBin (some 100) (numBins (frameSize audio320.sample_rate))
        (numBins (frameSize audio320.sample_rate))
      ≤ getBin (some 2000) 0 (numBins (frameSize audio320.sample_rate)) ∧
    specFreqBins
        (get_audio_features audio320 ("spec") ⟨none, some 2000, some 100⟩)
      = some 0 := by
  have h1 : (100 : ℕ) ≤ audio320.sample_rate := by norm_num [audio320]
  have h2 : frameSize audio320.sample_rate ≤ audio320.signal.length := by
    show frameSize 16000 ≤ (List.replicate 320 (0 : ℚ)).length
    rw [frameSize_eq, List.length_replicate]
  have hN : numBins (frameSize audio320.sample_rate) = 161 := by
    show numBins (frameSize 16000) = 161
    rw [frameSize_eq]
    decide
  have hb : getBin (some 100) (numBins (frameSize audio320.sample_rate))
      (numBins (frameSize audio320.sample_rate))
      ≤ getBin (some 2000) 0 (numBins (frameSize audio320.sample_rate)) := by
    rw [hN, getBin_some 100 161 161 (by decide),
      getBin_some 2000 0 161 (by decide)]
    decide
  exact ⟨by decide, by decide, h1, h2, hb,
    empty_crop_returns audio320 2000 100 (by decide) (by decide) h1 h2 hb⟩

/-- C1: below the number of one-sided bins, the pre-log spectrogram is
the squared-magnitude FFT of the windowed frame divided by `scale` on
the edge bins (DC at `0`, Nyquist at `F/2`) and by `scale / 2` on every
interior bin, where `scale = sum(window^2) * sample_rate`. -/
theorem spec_power_normalization (F sr : ℕ) (frames : ℕ → ℕ → ℝ)
    (b t : ℕ) (hb : b < numBins F) :
    preLogSpec F sr frames b t
      = if b = 0 ∨ b = F / 2 then powerSpec F frames b t / scaleOf F sr
        else powerSpec F frames b t / (scaleOf F sr / 2) := by
  have hb' : b < F / 2 + 1 := hb
  simp only [preLogSpec, scaledStep2, scaledStep1, numBins]
  split_ifs <;> first | rfl | (exfalso; omega)

/-- Witness for C1 at `F = 4`, bin 1 (interior), zero frames. -/
theorem spec_power_normalization_witness :
    1 < numBins 4 ∧
    preLogSpec 4 16000 (fun _ _ => (0 : ℝ)) 1 0
      = if 1 = 0 ∨ 1 = 4 / 2 then
          powerSpec 4 (fun _ _ => (0 : ℝ)) 1 0 / scaleOf 4 16000
        else powerSpec 4 (fun _ _ => (0 : ℝ)) 1 0 / (scaleOf 4 16000 / 2) :=
  ⟨by decide, spec_power_normalization 4 16000 (fun _ _ => (0 : ℝ)) 1 0 (by decide)⟩

lemma rfft_smul (F : ℕ) (c : ℝ) (x : ℕ → ℝ) (b : ℕ) :
    rfft F (fun k => c * x k) b = (c : ℂ) * rfft F x b := by
  simp only [rfft]
  rw [Finset.mul_sum]
  refine Finset.sum_congr rfl ?_
  intro k hk
  push_cast
  ring

lemma powerSpec_smul (F : ℕ) (frames : ℕ → ℕ → ℝ) (c : ℝ) (t0 b : ℕ) :
    powerSpec F (fun k t => if t = t0 then c * frames k t else frames k t) b t0
      = c ^ 2 * powerSpec F frames b t0 := by
  simp only [powerSpec, if_true, eq_self_iff_true]
  have h1 : (fun k => c * frames k t0 * hanning F k)
      = fun k => c * (frames k t0 * hanning F k) := by
    funext k
    ring
  rw [h1, rfft_smul, map_mul, Complex.abs_ofReal, mul_pow, sq_abs]

lemma scaledStep1_smul (F : ℕ) (s c2 : ℝ) (a b' : ℕ → ℕ → ℝ) (b t : ℕ)
    (h : b' b t = c2 * a b t) :
    scaledStep1 F s b' b t = c2 * scaledStep1 F s a b t := by
  simp only [scaledStep1]
  split_ifs
  · rw [h, mul_div_assoc]
  · exact h

lemma scaledStep2_smul (F : ℕ) (s c2 : ℝ) (a b' : ℕ → ℕ → ℝ) (b t : ℕ)
    (h : b' b t = c2 * a b t) :
    scaledStep2 F s b' b t = c2 * scaledStep2 F s a b t := by
  simp only [scaledStep2]
  split_ifs
  · rw [h, mul_div_assoc]
  · exact h

/-- C8: multiplying the samples of frame `t0` by a constant `c`
multiplies every value of that frame's pre-log power-spectrum column by
`c²`, for any cutoff configuration — the window/FFT/power/normalize
pipeline is homogeneous of degree 2 in the frame amplitude. -/
theorem spec_power_homogeneity (F sr : ℕ) (frames : ℕ → ℕ → ℝ) (c : ℝ)
    (t0 : ℕ) (low high : Option ℕ) (b : ℕ) :
    croppedPreLog F sr
        (fun k t => if t = t0 then c * frames k t else frames k t)
        low high b t0
      = c ^ 2 * croppedPreLog F sr frames low high b t0 := by
  simp only [croppedPreLog, preLogSpec]
  refine scaledStep2_smul _ _ _ _ _ _ _ ?_
  refine scaledStep1_smul _ _ _ _ _ _ _ ?_
  exact powerSpec_smul F frames c t0 _

end Audiotools
